import Mathlib

namespace WallabagKindleConsumer

/-- Raw registration request: the POST form surface read by the interface.
The source reads exactly the keys username, password, kindleEmail and
notifyEmail from the submitted mapping; a key absent from the mapping is
`none`. -/
structure Form where
  username : Option String
  password : Option String
  kindleEmail : Option String
  notifyEmail : Option String
deriving DecidableEq

/-- The empty mapping staged by `self._set_data({})` after a successful
registration, seen through the four keys the interface reads. -/
def emptyForm : Form := ⟨none, none, none, none⟩

/-- Python test `key not in data or 0 == len(data[key])`. -/
def fieldMissing : Option String → Bool
  | none => true
  | some s => s.length == 0

/-- First-match lookup in an association list, the mapping view of a Python
dict. -/
def lookupKey (k : String) : List (String × String) → Option String
  | [] => none
  | p :: ps => if p.1 = k then some p.2 else lookupKey k ps

/-- Python `dict.update` on the mapping view: keys present in the update take
its value, the remaining keys keep theirs. -/
def dictUpdate : List (String × String) → List (String × String) → List (String × String)
  | [], u => u
  | p :: ps, u => if (lookupKey p.1 u).isNone then p :: dictUpdate ps u else dictUpdate ps u

/-- Python `str.endswith`. -/
def strEndsWith (s t : String) : Bool := decide (t.data <:+ s.data)

/-- Character-wise lower-casing of a string. -/
def strToLower (s : String) : String := String.mk (s.data.map Char.toLower)

/-- Split a character list at its unique at-sign: `some (localPart, domain)`
when the list contains exactly one at-sign, `none` otherwise. -/
def splitAtSign : List Char → Option (List Char × List Char)
  | [] => none
  | c :: cs =>
    if c = '@' then if '@' ∈ cs then none else some ([], cs)
    else
      match splitAtSign cs with
      | none => none
      | some (l, d) => some (c :: l, d)

/-- Modelled from the spec: the external email syntax validator (the
email_validator library behind `Validator._validate_email`, whose code is not
under src/). Per the spec it either rejects the address or returns a
normalized address that may differ from the raw string, e.g. a lower-cased
domain part. Modelled as: an address is valid iff it contains exactly one
at-sign with a nonempty local part before it and a nonempty domain after it;
normalization lower-cases the domain part. -/
def validateEmailSpec (s : String) : Option String :=
  match splitAtSign s.data with
  | none => none
  | some (l, d) =>
    if l = [] ∨ d = [] then none
    else some (String.mk (l ++ '@' :: d.map Char.toLower))

/-- Result of `Validator.validate_credentials`: its local errors dict and the
username/password attributes it sets. -/
structure CredOut where
  errors : List (String × String)
  username : Option String
  password : Option String
deriving DecidableEq

/-- Embedding of `Validator.validate_credentials`. -/
def validate_credentials (data : Form) : CredOut :=
  let userPart : List (String × String) × Option String :=
    if fieldMissing data.username then ([("username", "Username not given or empty")], none)
    else ([], data.username)
  let passPart : List (String × String) × Option String :=
    if fieldMissing data.password then ([("password", "Password not given or empty")], none)
    else ([], data.password)
  { errors := userPart.1 ++ passPart.1, username := userPart.2, password := passPart.2 }

/-- Result of `Validator.validate_emails`: its local errors dict and the two
email attributes it sets. -/
structure EmailOut where
  errors : List (String × String)
  kindle_email : Option String
  notify_email : Option String
deriving DecidableEq

/-- Embedding of `Validator.validate_emails`, parametrized by the external
email syntax validator `ve` (`none` models EmailNotValidError). -/
def validate_emails (ve : String → Option String) (data : Form) : EmailOut :=
  let kindlePart : List (String × String) × Option String :=
    if fieldMissing data.kindleEmail then
      ([("kindleEmail", "Kindle email address not given or empty")], none)
    else
      match ve (data.kindleEmail.getD "") with
      | none => ([("kindleEmail", "Kindle email is not a valid email address")], none)
      | some kindleEmail =>
        if strEndsWith kindleEmail "@kindle.com" || strEndsWith kindleEmail "@free.kindle.com" then
          ([], some kindleEmail)
        else
          ([("kindleEmail", "Given Kindle email does not end with @kindle.com or @free.kindle.com")], none)
  let notifyPart : List (String × String) × Option String :=
    if fieldMissing data.notifyEmail then
      ([("notifyEmail", "Notification email not given or empty")], none)
    else
      match ve (data.notifyEmail.getD "") with
      | none => ([("notifyEmail", "Notification email is not a valid email address")], none)
      | some notifyEmail => ([], some notifyEmail)
  { errors := kindlePart.1 ++ notifyPart.1,
    kindle_email := kindlePart.2, notify_email := notifyPart.2 }

/-- State of a `Validator` after both gathered passes have completed, with the
update of the shared errors dict by `validate_emails` applied first. -/
structure ValidatorState where
  errors : List (String × String)
  username : Option String
  password : Option String
  kindle_email : Option String
  notify_email : Option String
deriving DecidableEq

/-- Join of the two gathered validation passes, errors update of
`validate_emails` first. -/
def runValidatorEC (ve : String → Option String) (data : Form) : ValidatorState :=
  let e := validate_emails ve data
  let c := validate_credentials data
  { errors := dictUpdate (dictUpdate [] e.errors) c.errors,
    username := c.username, password := c.password,
    kindle_email := e.kindle_email, notify_email := e.notify_email }

/-- Join of the two gathered validation passes, errors update of
`validate_credentials` first. -/
def runValidatorCE (ve : String → Option String) (data : Form) : ValidatorState :=
  let e := validate_emails ve data
  let c := validate_credentials data
  { errors := dictUpdate (dictUpdate [] c.errors) e.errors,
    username := c.username, password := c.password,
    kindle_email := e.kindle_email, notify_email := e.notify_email }

/-- The validator state `IndexView.post` observes after `asyncio.gather`
joins both passes. -/
def runValidator : (String → Option String) → Form → ValidatorState := runValidatorEC

/-- Property `Validator.success`: the merged errors dict is empty. -/
def ValidatorState.success (v : ValidatorState) : Bool := v.errors.length == 0

/-- Modelled from the spec: the durable `models.User` entity (models.py is not
under src/), with identity key `name`, delivery address `kindle_mail` and
notification address `email`, exactly the keyword arguments `IndexView.post`
constructs it with. -/
structure User where
  name : String
  kindle_mail : String
  email : String
deriving DecidableEq

/-- Observable construction, storage and issuance actions of one
`IndexView.post` run, in program order. -/
inductive Event where
  | constructUser (u : User)
  | queryUser (name : String)
  | issueToken (u : User) (password : String) (ok : Bool)
  | insertUser (u : User)
  | updateUser (u : User)
  | deleteUser (name : String)
deriving DecidableEq

/-- Response surface and side effects of one `IndexView.post` run. -/
structure PostResult where
  errors : List (String × String)
  dataOut : Form
  messages : List String
  repo : List User
  trace : List Event
deriving DecidableEq

/-- Embedding of `IndexView.post`: gather the validator passes, then
uniqueness query, token issuance and insert, each stage short-circuiting.
`repo` is the list of persisted users behind the session; `get_token` is the
external wallabag credential issuer. -/
def post (ve : String → Option String) (get_token : User → String → Bool)
    (repo : List User) (data : Form) : PostResult :=
  let v := runValidator ve data
  if v.success then
    let user : User :=
      { name := v.username.getD "", kindle_mail := v.kindle_email.getD "",
        email := v.notify_email.getD "" }
    if (repo.filter (fun u => u.name = v.username.getD "")).length ≠ 0 then
      { errors := dictUpdate v.errors [("user", "User is already registered")],
        dataOut := data, messages := [], repo := repo,
        trace := [Event.constructUser user, Event.queryUser (v.username.getD "")] }
    else if get_token user (v.password.getD "") = false then
      { errors := dictUpdate v.errors
          [("auth", "Cannot authenticate at wallabag server to get a token")],
        dataOut := data, messages := [], repo := repo,
        trace := [Event.constructUser user, Event.queryUser (v.username.getD ""),
                  Event.issueToken user (v.password.getD "") false] }
    else
      { errors := v.errors, dataOut := emptyForm,
        messages := ["User successfully registered"], repo := repo ++ [user],
        trace := [Event.constructUser user, Event.queryUser (v.username.getD ""),
                  Event.issueToken user (v.password.getD "") true,
                  Event.insertUser user] }
  else
    { errors := v.errors, dataOut := data, messages := [], repo := repo, trace := [] }

/-- The in-memory User that `IndexView.post` constructs from the validated
values of a request. -/
def regUser (ve : String → Option String) (data : Form) : User :=
  { name := (runValidator ve data).username.getD "",
    kindle_mail := (runValidator ve data).kindle_email.getD "",
    email := (runValidator ve data).notify_email.getD "" }

theorem lookupKey_dictUpdate (d u : List (String × String)) (k : String) :
    lookupKey k (dictUpdate d u) = (lookupKey k u).or (lookupKey k d) := by
  induction d with
  | nil => simp [dictUpdate, lookupKey, Option.or_none]
  | cons p ps ih =>
    by_cases hpk : p.1 = k
    · subst hpk
      cases hu : lookupKey p.1 u with
      | none => simp [dictUpdate, hu, lookupKey, ih]
      | some v => simp [dictUpdate, hu, lookupKey, ih]
    · cases hu : lookupKey p.1 u with
      | none => simp [dictUpdate, hu, lookupKey, hpk, ih]
      | some v => simp [dictUpdate, hu, lookupKey, hpk, ih]

theorem dictUpdate_nil_right (d : List (String × String)) : dictUpdate d [] = d := by
  induction d with
  | nil => rfl
  | cons p ps ih => simp [dictUpdate, lookupKey, ih]

theorem dictUpdate_eq_nil_iff (d u : List (String × String)) :
    dictUpdate d u = [] ↔ d = [] ∧ u = [] := by
  constructor
  · intro h
    cases u with
    | nil => rw [dictUpdate_nil_right] at h; exact ⟨h, rfl⟩
    | cons q qs =>
      exfalso
      induction d with
      | nil => simp [dictUpdate] at h
      | cons p ps ih =>
        rw [dictUpdate] at h
        by_cases hp : (lookupKey p.1 (q :: qs)).isNone
        · simp [hp] at h
        · simp [hp] at h; exact ih h
  · rintro ⟨rfl, rfl⟩; rfl

theorem cred_username_error (data : Form) :
    lookupKey "username" (validate_credentials data).errors =
      if fieldMissing data.username then some "Username not given or empty" else none := by
  by_cases hu : fieldMissing data.username <;> by_cases hp : fieldMissing data.password <;>
    simp [validate_credentials, hu, hp, lookupKey]

theorem cred_password_error (data : Form) :
    lookupKey "password" (validate_credentials data).errors =
      if fieldMissing data.password then some "Password not given or empty" else none := by
  by_cases hu : fieldMissing data.username <;> by_cases hp : fieldMissing data.password <;>
    simp [validate_credentials, hu, hp, lookupKey]

theorem cred_error_keys (data : Form) (k : String) (hk1 : k ≠ "username")
    (hk2 : k ≠ "password") : lookupKey k (validate_credentials data).errors = none := by
  by_cases hu : fieldMissing data.username <;> by_cases hp : fieldMissing data.password <;>
    simp [validate_credentials, hu, hp, lookupKey, Ne.symm hk1, Ne.symm hk2]

theorem cred_username_val (data : Form) :
    (validate_credentials data).username =
      if fieldMissing data.username then none else data.username := by
  by_cases hu : fieldMissing data.username <;> simp [validate_credentials, hu]

theorem cred_password_val (data : Form) :
    (validate_credentials data).password =
      if fieldMissing data.password then none else data.password := by
  by_cases hp : fieldMissing data.password <;> simp [validate_credentials, hp]

theorem emails_kindle_missing (ve : String → Option String) (data : Form)
    (h : fieldMissing data.kindleEmail = true) :
    lookupKey "kindleEmail" (validate_emails ve data).errors =
      some "Kindle email address not given or empty" ∧
    (validate_emails ve data).kindle_email = none := by
  simp [validate_emails, h, lookupKey]

theorem emails_kindle_invalid (ve : String → Option String) (data : Form)
    (h : fieldMissing data.kindleEmail = false)
    (hv : ve (data.kindleEmail.getD "") = none) :
    lookupKey "kindleEmail" (validate_emails ve data).errors =
      some "Kindle email is not a valid email address" ∧
    (validate_emails ve data).kindle_email = none := by
  simp [validate_emails, h, hv, lookupKey]

theorem emails_kindle_domain (ve : String → Option String) (data : Form) (e : String)
    (h : fieldMissing data.kindleEmail = false)
    (hv : ve (data.kindleEmail.getD "") = some e)
    (hd : (strEndsWith e "@kindle.com" || strEndsWith e "@free.kindle.com") = false) :
    lookupKey "kindleEmail" (validate_emails ve data).errors =
      some "Given Kindle email does not end with @kindle.com or @free.kindle.com" ∧
    (validate_emails ve data).kindle_email = none := by
  simp [validate_emails, h, hv, hd, lookupKey]

theorem emails_kindle_ok (ve : String → Option String) (data : Form) (e : String)
    (h : fieldMissing data.kindleEmail = false)
    (hv : ve (data.kindleEmail.getD "") = some e)
    (hd : (strEndsWith e "@kindle.com" || strEndsWith e "@free.kindle.com") = true) :
    lookupKey "kindleEmail" (validate_emails ve data).errors = none ∧
    (validate_emails ve data).kindle_email = some e := by
  by_cases hn : fieldMissing data.notifyEmail <;>
    cases hvn : ve (data.notifyEmail.getD "") <;>
      simp [validate_emails, h, hv, hd, hn, hvn, lookupKey]

theorem emails_notify_missing (ve : String → Option String) (data : Form)
    (h : fieldMissing data.notifyEmail = true) :
    lookupKey "notifyEmail" (validate_emails ve data).errors =
      some "Notification email not given or empty" ∧
    (validate_emails ve data).notify_email = none := by
  by_cases hk : fieldMissing data.kindleEmail <;>
    cases hvk : ve (data.kindleEmail.getD "") <;>
      simp [validate_emails, h, hk, hvk, lookupKey] <;>
        split <;> simp [lookupKey]

theorem emails_notify_invalid (ve : String → Option String) (data : Form)
    (h : fieldMissing data.notifyEmail = false)
    (hv : ve (data.notifyEmail.getD "") = none) :
    lookupKey "notifyEmail" (validate_emails ve data).errors =
      some "Notification email is not a valid email address" ∧
    (validate_emails ve data).notify_email = none := by
  by_cases hk : fieldMissing data.kindleEmail <;>
    cases hvk : ve (data.kindleEmail.getD "") <;>
      simp [validate_emails, h, hv, hk, hvk, lookupKey] <;>
        split <;> simp [lookupKey]

theorem emails_notify_ok (ve : String → Option String) (data : Form) (e : String)
    (h : fieldMissing data.notifyEmail = false)
    (hv : ve (data.notifyEmail.getD "") = some e) :
    lookupKey "notifyEmail" (validate_emails ve data).errors = none ∧
    (validate_emails ve data).notify_email = some e := by
  by_cases hk : fieldMissing data.kindleEmail <;>
    cases hvk : ve (data.kindleEmail.getD "") <;>
      simp [validate_emails, h, hv, hk, hvk, lookupKey] <;>
        split <;> simp [lookupKey]

theorem emails_error_keys (ve : String → Option String) (data : Form) (k : String)
    (h1 : k ≠ "kindleEmail") (h2 : k ≠ "notifyEmail") :
    lookupKey k (validate_emails ve data).errors = none := by
  by_cases hk : fieldMissing data.kindleEmail <;>
    by_cases hn : fieldMissing data.notifyEmail <;>
      cases hvk : ve (data.kindleEmail.getD "") <;>
        cases hvn : ve (data.notifyEmail.getD "") <;>
          simp [validate_emails, hk, hn, hvk, hvn, lookupKey, Ne.symm h1, Ne.symm h2] <;>
            split <;> simp [lookupKey, Ne.symm h1, Ne.symm h2]

theorem validator_lookup (ve : String → Option String) (data : Form) (k : String) :
    lookupKey k (runValidator ve data).errors =
      (lookupKey k (validate_credentials data).errors).or
        (lookupKey k (validate_emails ve data).errors) := by
  simp [runValidator, runValidatorEC, dictUpdate, lookupKey_dictUpdate]

theorem validator_username_val (ve : String → Option String) (data : Form) :
    (runValidator ve data).username = (validate_credentials data).username := rfl

theorem validator_password_val (ve : String → Option String) (data : Form) :
    (runValidator ve data).password = (validate_credentials data).password := rfl

theorem validator_kindle_val (ve : String → Option String) (data : Form) :
    (runValidator ve data).kindle_email = (validate_emails ve data).kindle_email := rfl

theorem validator_notify_val (ve : String → Option String) (data : Form) :
    (runValidator ve data).notify_email = (validate_emails ve data).notify_email := rfl

theorem validator_kindle_lookup (ve : String → Option String) (data : Form) :
    lookupKey "kindleEmail" (runValidator ve data).errors =
      lookupKey "kindleEmail" (validate_emails ve data).errors := by
  rw [validator_lookup, cred_error_keys data _ (by decide) (by decide), Option.none_or]

theorem validator_notify_lookup (ve : String → Option String) (data : Form) :
    lookupKey "notifyEmail" (runValidator ve data).errors =
      lookupKey "notifyEmail" (validate_emails ve data).errors := by
  rw [validator_lookup, cred_error_keys data _ (by decide) (by decide), Option.none_or]

theorem validator_username_lookup (ve : String → Option String) (data : Form) :
    lookupKey "username" (runValidator ve data).errors =
      if fieldMissing data.username then some "Username not given or empty" else none := by
  rw [validator_lookup, emails_error_keys ve data _ (by decide) (by decide),
    Option.or_none, cred_username_error]

theorem validator_password_lookup (ve : String → Option String) (data : Form) :
    lookupKey "password" (runValidator ve data).errors =
      if fieldMissing data.password then some "Password not given or empty" else none := by
  rw [validator_lookup, emails_error_keys ve data _ (by decide) (by decide),
    Option.or_none, cred_password_error]

theorem success_iff_errors_nil (v : ValidatorState) : v.success = true ↔ v.errors = [] := by
  simp [ValidatorState.success, List.length_eq_zero]

theorem validator_errors_nil (ve : String → Option String) (data : Form) :
    (runValidator ve data).errors = [] ↔
      (validate_emails ve data).errors = [] ∧ (validate_credentials data).errors = [] := by
  simp [runValidator, runValidatorEC, dictUpdate, dictUpdate_eq_nil_iff]

theorem fieldMissing_eq_false_iff (o : Option String) :
    fieldMissing o = false ↔ ∃ s, o = some s ∧ ¬ s.length = 0 := by
  cases o <;> simp [fieldMissing]

theorem validator_username_iff (ve : String → Option String) (data : Form) :
    (lookupKey "username" (runValidator ve data).errors).isSome ↔
      (runValidator ve data).username = none := by
  rw [validator_username_lookup, validator_username_val, cred_username_val]
  by_cases hu : fieldMissing data.username
  · simp [hu]
  · simp only [Bool.not_eq_true] at hu
    obtain ⟨s, hs, -⟩ := (fieldMissing_eq_false_iff data.username).mp hu
    simp [hu, hs]

theorem validator_password_iff (ve : String → Option String) (data : Form) :
    (lookupKey "password" (runValidator ve data).errors).isSome ↔
      (runValidator ve data).password = none := by
  rw [validator_password_lookup, validator_password_val, cred_password_val]
  by_cases hp : fieldMissing data.password
  · simp [hp]
  · simp only [Bool.not_eq_true] at hp
    obtain ⟨s, hs, -⟩ := (fieldMissing_eq_false_iff data.password).mp hp
    simp [hp, hs]

theorem validator_kindle_iff (ve : String → Option String) (data : Form) :
    (lookupKey "kindleEmail" (runValidator ve data).errors).isSome ↔
      (runValidator ve data).kindle_email = none := by
  rw [validator_kindle_lookup, validator_kindle_val]
  by_cases hk : fieldMissing data.kindleEmail
  · obtain ⟨h1, h2⟩ := emails_kindle_missing ve data hk
    simp [h1, h2]
  · simp only [Bool.not_eq_true] at hk
    cases hvk : ve (data.kindleEmail.getD "") with
    | none =>
      obtain ⟨h1, h2⟩ := emails_kindle_invalid ve data hk hvk
      simp [h1, h2]
    | some e =>
      by_cases hd : (strEndsWith e "@kindle.com" || strEndsWith e "@free.kindle.com") = true
      · obtain ⟨h1, h2⟩ := emails_kindle_ok ve data e hk hvk hd
        simp [h1, h2]
      · simp only [Bool.not_eq_true] at hd
        obtain ⟨h1, h2⟩ := emails_kindle_domain ve data e hk hvk hd
        simp [h1, h2]

theorem validator_notify_iff (ve : String → Option String) (data : Form) :
    (lookupKey "notifyEmail" (runValidator ve data).errors).isSome ↔
      (runValidator ve data).notify_email = none := by
  rw [validator_notify_lookup, validator_notify_val]
  by_cases hn : fieldMissing data.notifyEmail
  · obtain ⟨h1, h2⟩ := emails_notify_missing ve data hn
    simp [h1, h2]
  · simp only [Bool.not_eq_true] at hn
    cases hvn : ve (data.notifyEmail.getD "") with
    | none =>
      obtain ⟨h1, h2⟩ := emails_notify_invalid ve data hn hvn
      simp [h1, h2]
    | some e =>
      obtain ⟨h1, h2⟩ := emails_notify_ok ve data e hn hvn
      simp [h1, h2]

theorem post_validation_failed (ve : String → Option String) (get_token : User → String → Bool)
    (repo : List User) (data : Form) (h : (runValidator ve data).success = false) :
    post ve get_token repo data =
      { errors := (runValidator ve data).errors, dataOut := data, messages := [],
        repo := repo, trace := [] } := by
  simp [post, h]

theorem post_user_exists (ve : String → Option String) (get_token : User → String → Bool)
    (repo : List User) (data : Form) (hs : (runValidator ve data).success = true)
    (hex : (repo.filter
      (fun u => u.name = (runValidator ve data).username.getD "")).length ≠ 0) :
    post ve get_token repo data =
      { errors := [("user", "User is already registered")], dataOut := data, messages := [],
        repo := repo,
        trace := [Event.constructUser (regUser ve data),
                  Event.queryUser ((runValidator ve data).username.getD "")] } := by
  have he : (runValidator ve data).errors = [] := (success_iff_errors_nil _).mp hs
  simp [post, regUser, hs, hex, he, dictUpdate, lookupKey]

theorem post_auth_failed (ve : String → Option String) (get_token : User → String → Bool)
    (repo : List User) (data : Form) (hs : (runValidator ve data).success = true)
    (hnx : (repo.filter
      (fun u => u.name = (runValidator ve data).username.getD "")).length = 0)
    (hgt : get_token (regUser ve data) ((runValidator ve data).password.getD "") = false) :
    post ve get_token repo data =
      { errors := [("auth", "Cannot authenticate at wallabag server to get a token")],
        dataOut := data, messages := [], repo := repo,
        trace := [Event.constructUser (regUser ve data),
                  Event.queryUser ((runValidator ve data).username.getD ""),
                  Event.issueToken (regUser ve data)
                    ((runValidator ve data).password.getD "") false] } := by
  have he : (runValidator ve data).errors = [] := (success_iff_errors_nil _).mp hs
  simp only [regUser] at hgt
  simp [post, regUser, hs, hnx, hgt, he, dictUpdate, lookupKey]

theorem post_success (ve : String → Option String) (get_token : User → String → Bool)
    (repo : List User) (data : Form) (hs : (runValidator ve data).success = true)
    (hnx : (repo.filter
      (fun u => u.name = (runValidator ve data).username.getD "")).length = 0)
    (hgt : get_token (regUser ve data) ((runValidator ve data).password.getD "") = true) :
    post ve get_token repo data =
      { errors := [], dataOut := emptyForm, messages := ["User successfully registered"],
        repo := repo ++ [regUser ve data],
        trace := [Event.constructUser (regUser ve data),
                  Event.queryUser ((runValidator ve data).username.getD ""),
                  Event.issueToken (regUser ve data)
                    ((runValidator ve data).password.getD "") true,
                  Event.insertUser (regUser ve data)] } := by
  have he : (runValidator ve data).errors = [] := (success_iff_errors_nil _).mp hs
  simp only [regUser] at hgt
  simp [post, regUser, hs, hnx, hgt, he]

/-- C1: for a request that passes validation and whose username is not yet in
the repository, if the credential issuer fails to return a token the
orchestrator reports exactly the error key auth, the repository is unchanged,
the constructed User is never inserted, and no success message is emitted. -/
theorem c1_auth_failure (ve : String → Option String) (get_token : User → String → Bool)
    (repo : List User) (data : Form) (hs : (runValidator ve data).success = true)
    (hnx : (repo.filter
      (fun u => u.name = (runValidator ve data).username.getD "")).length = 0)
    (hgt : get_token (regUser ve data) ((runValidator ve data).password.getD "") = false) :
    (post ve get_token repo data).errors =
      [("auth", "Cannot authenticate at wallabag server to get a token")] ∧
    (post ve get_token repo data).repo = repo ∧
    (∀ u, Event.insertUser u ∉ (post ve get_token repo data).trace) ∧
    (post ve get_token repo data).messages = [] := by
  rw [post_auth_failed ve get_token repo data hs hnx hgt]
  exact ⟨rfl, rfl, by simp, rfl⟩

/-- Witness for C1 at a concrete request, empty repository and an issuer that
always fails. -/
theorem c1_auth_failure_witness :
    (runValidator (fun s => some s)
      ⟨some "alice", some "secret", some "alice@kindle.com", some "alice@example.com"⟩).success
        = true ∧
    (post (fun s => some s) (fun _ _ => false) []
      ⟨some "alice", some "secret", some "alice@kindle.com", some "alice@example.com"⟩).errors =
      [("auth", "Cannot authenticate at wallabag server to get a token")] ∧
    (post (fun s => some s) (fun _ _ => false) []
      ⟨some "alice", some "secret", some "alice@kindle.com", some "alice@example.com"⟩).messages
        = [] := by
  refine ⟨by decide, ?_, ?_⟩
  · exact (c1_auth_failure (fun s => some s) (fun _ _ => false) []
      ⟨some "alice", some "secret", some "alice@kindle.com", some "alice@example.com"⟩
      (by decide) (by decide) (by decide)).1
  · exact (c1_auth_failure (fun s => some s) (fun _ _ => false) []
      ⟨some "alice", some "secret", some "alice@kindle.com", some "alice@example.com"⟩
      (by decide) (by decide) (by decide)).2.2.2

/-- C2: when the validation pass is not successful the orchestrator returns the
validator's errors, a non-empty mapping, and performs no external calls at all:
the trace is empty (no uniqueness query, no issuance, no insert) and the
repository is unchanged. -/
theorem c2_validation_short_circuit (ve : String → Option String)
    (get_token : User → String → Bool) (repo : List User) (data : Form)
    (h : (runValidator ve data).success = false) :
    (post ve get_token repo data).errors = (runValidator ve data).errors ∧
    (runValidator ve data).errors ≠ [] ∧
    (post ve get_token repo data).trace = [] ∧
    (post ve get_token repo data).repo = repo := by
  have hp := post_validation_failed ve get_token repo data h
  refine ⟨by rw [hp], ?_, by rw [hp], by rw [hp]⟩
  intro hnil
  have hs := (success_iff_errors_nil (runValidator ve data)).mpr hnil
  rw [h] at hs
  exact Bool.false_ne_true hs

/-- Witness for C2 at the empty form, where every field error fires. -/
theorem c2_validation_short_circuit_witness :
    (runValidator (fun _ => none) emptyForm).success = false ∧
    ((post (fun _ => none) (fun _ _ => true) [] emptyForm).errors =
        (runValidator (fun _ => none) emptyForm).errors ∧
      (runValidator (fun _ => none) emptyForm).errors ≠ [] ∧
      (post (fun _ => none) (fun _ _ => true) [] emptyForm).trace = [] ∧
      (post (fun _ => none) (fun _ _ => true) [] emptyForm).repo = []) :=
  ⟨by decide,
   c2_validation_short_circuit (fun _ => none) (fun _ _ => true) [] emptyForm (by decide)⟩

/-- C3: when the validated username already belongs to a persisted user the
orchestrator reports the error key user with message User is already
registered, never invokes credential issuance, and inserts nothing; in
particular, after a run that did insert a user, re-running the orchestrator
with the same request always fails this way with no second issuance call. -/
theorem c3_already_registered (ve : String → Option String)
    (get_token : User → String → Bool) (repo : List User) (data : Form) :
    ((runValidator ve data).success = true →
      (repo.filter
        (fun u => u.name = (runValidator ve data).username.getD "")).length ≠ 0 →
      (post ve get_token repo data).errors = [("user", "User is already registered")] ∧
      (∀ u pw ok, Event.issueToken u pw ok ∉ (post ve get_token repo data).trace) ∧
      (post ve get_token repo data).repo = repo) ∧
    (∀ u, (post ve get_token repo data).repo = repo ++ [u] →
      (post ve get_token (repo ++ [u]) data).errors =
        [("user", "User is already registered")] ∧
      (∀ u2 pw ok, Event.issueToken u2 pw ok ∉ (post ve get_token (repo ++ [u]) data).trace)) := by
  constructor
  · intro hs hex
    rw [post_user_exists ve get_token repo data hs hex]
    exact ⟨rfl, by simp, rfl⟩
  · intro u hins
    by_cases hs : (runValidator ve data).success = true
    · by_cases hex : (repo.filter
        (fun u => u.name = (runValidator ve data).username.getD "")).length ≠ 0
      · rw [post_user_exists ve get_token repo data hs hex] at hins
        have := congrArg List.length hins
        simp at this
      · push_neg at hex
        by_cases hgt : get_token (regUser ve data)
            ((runValidator ve data).password.getD "") = true
        · rw [post_success ve get_token repo data hs hex hgt] at hins
          have hu : u = regUser ve data := by
            have := List.append_cancel_left hins.symm
            simpa using this
          subst hu
          have hex2 : ((repo ++ [regUser ve data]).filter
              (fun u => u.name = (runValidator ve data).username.getD "")).length ≠ 0 := by
            rw [List.filter_append]
            simp [regUser]
          rw [post_user_exists ve get_token (repo ++ [regUser ve data]) data hs hex2]
          exact ⟨rfl, by simp⟩
        · simp only [Bool.not_eq_true] at hgt
          rw [post_auth_failed ve get_token repo data hs hex hgt] at hins
          have := congrArg List.length hins
          simp at this
    · simp only [Bool.not_eq_true] at hs
      rw [post_validation_failed ve get_token repo data hs] at hins
      have := congrArg List.length hins
      simp at this

/-- Witness for C3: a repository already holding the name alice rejects the
request for alice without issuance. -/
theorem c3_already_registered_witness :
    (runValidator (fun s => some s)
      ⟨some "alice", some "secret", some "alice@kindle.com", some "alice@example.com"⟩).success
        = true ∧
    (([⟨"alice", "a@kindle.com", "a@example.com"⟩] : List User).filter
      (fun u => u.name = ((runValidator (fun s => some s)
        ⟨some "alice", some "secret", some "alice@kindle.com",
          some "alice@example.com"⟩).username.getD ""))).length ≠ 0 ∧
    (post (fun s => some s) (fun _ _ => true) [⟨"alice", "a@kindle.com", "a@example.com"⟩]
      ⟨some "alice", some "secret", some "alice@kindle.com", some "alice@example.com"⟩).errors =
      [("user", "User is already registered")] := by
  refine ⟨by decide, by decide, ?_⟩
  exact ((c3_already_registered (fun s => some s) (fun _ _ => true)
    [⟨"alice", "a@kindle.com", "a@example.com"⟩]
    ⟨some "alice", some "secret", some "alice@kindle.com",
      some "alice@example.com"⟩).1 (by decide) (by decide)).1

/-- C4: after both validation passes complete, each of the four field names is
a key of the merged errors mapping iff the corresponding typed value is
absent, and the success verdict holds iff the errors mapping is empty. -/
theorem c4_errors_iff_value_absent (ve : String → Option String) (data : Form) :
    ((lookupKey "username" (runValidator ve data).errors).isSome ↔
      (runValidator ve data).username = none) ∧
    ((lookupKey "password" (runValidator ve data).errors).isSome ↔
      (runValidator ve data).password = none) ∧
    ((lookupKey "kindleEmail" (runValidator ve data).errors).isSome ↔
      (runValidator ve data).kindle_email = none) ∧
    ((lookupKey "notifyEmail" (runValidator ve data).errors).isSome ↔
      (runValidator ve data).notify_email = none) ∧
    ((runValidator ve data).success = true ↔ (runValidator ve data).errors = []) :=
  ⟨validator_username_iff ve data, validator_password_iff ve data,
   validator_kindle_iff ve data, validator_notify_iff ve data,
   success_iff_errors_nil (runValidator ve data)⟩

/-- Counterexample to C7: a failing request (username missing) whose response
surface still carries the submitted password unchanged; the secret is not
removed from the returned data. -/
theorem c7_counterexample :
    (post validateEmailSpec (fun _ _ => true) []
      ⟨none, some "secret", some "alice@kindle.com", some "alice@example.com"⟩).errors ≠ [] ∧
    (post validateEmailSpec (fun _ _ => true) []
      ⟨none, some "secret", some "alice@kindle.com",
        some "alice@example.com"⟩).dataOut.password = some "secret" := by
  decide

/-- C7 (amended): every run either succeeds — one success message, cleared
form data, empty error mapping — or fails with the original submitted data
returned unchanged (the password included, it is not removed) together with a
non-empty error mapping. -/
theorem c7_response_surface (ve : String → Option String)
    (get_token : User → String → Bool) (repo : List User) (data : Form) :
    ((post ve get_token repo data).messages = ["User successfully registered"] ∧
      (post ve get_token repo data).dataOut = emptyForm ∧
      (post ve get_token repo data).errors = []) ∨
    ((post ve get_token repo data).messages = [] ∧
      (post ve get_token repo data).dataOut = data ∧
      (post ve get_token repo data).errors ≠ []) := by
  by_cases hs : (runValidator ve data).success = true
  · by_cases hex : (repo.filter
      (fun u => u.name = (runValidator ve data).username.getD "")).length ≠ 0
    · right
      rw [post_user_exists ve get_token repo data hs hex]
      exact ⟨rfl, rfl, by simp⟩
    · push_neg at hex
      by_cases hgt : get_token (regUser ve data)
          ((runValidator ve data).password.getD "") = true
      · left
        rw [post_success ve get_token repo data hs hex hgt]
        exact ⟨rfl, rfl, rfl⟩
      · simp only [Bool.not_eq_true] at hgt
        right
        rw [post_auth_failed ve get_token repo data hs hex hgt]
        exact ⟨rfl, rfl, by simp⟩
  · simp only [Bool.not_eq_true] at hs
    right
    rw [post_validation_failed ve get_token repo data hs]
    refine ⟨rfl, rfl, ?_⟩
    intro hnil
    have h2 := (success_iff_errors_nil (runValidator ve data)).mpr hnil
    rw [hs] at h2
    exact Bool.false_ne_true h2

/-- Counterexample to C8: on a request that passes validation but whose
issuance fails, the User is constructed first and handed to the issuer, and no
token is ever obtained — construction does not wait for a token. -/
theorem c8_counterexample :
    (post (fun s => some s) (fun _ _ => false) []
      ⟨some "alice", some "secret", some "alice@kindle.com",
        some "alice@example.com"⟩).trace =
      [Event.constructUser ⟨"alice", "alice@kindle.com", "alice@example.com"⟩,
       Event.queryUser "alice",
       Event.issueToken ⟨"alice", "alice@kindle.com", "alice@example.com"⟩ "secret" false] := by
  decide

/-- C8 (amended): the User is constructed only after full validation succeeds
and before credential issuance — the issuer receives the constructed User as
its argument; it becomes durable at most once, via a single insert, and is
never updated or deleted by this core. -/
theorem c8_lifecycle (ve : String → Option String) (get_token : User → String → Bool)
    (repo : List User) (data : Form) :
    (∀ u, Event.constructUser u ∈ (post ve get_token repo data).trace →
      (runValidator ve data).success = true) ∧
    (∀ u pw ok, Event.issueToken u pw ok ∈ (post ve get_token repo data).trace →
      (post ve get_token repo data).trace.head? = some (Event.constructUser u)) ∧
    ((post ve get_token repo data).trace.countP
      (fun ev => match ev with | Event.insertUser _ => true | _ => false) ≤ 1) ∧
    (∀ u, Event.updateUser u ∉ (post ve get_token repo data).trace) ∧
    (∀ n, Event.deleteUser n ∉ (post ve get_token repo data).trace) := by
  by_cases hs : (runValidator ve data).success = true
  · by_cases hex : (repo.filter
      (fun u => u.name = (runValidator ve data).username.getD "")).length ≠ 0
    · rw [post_user_exists ve get_token repo data hs hex]
      refine ⟨fun u hu => hs, by simp, ?_, by simp, by simp⟩
      simp [List.countP_cons, List.countP_nil]
    · push_neg at hex
      by_cases hgt : get_token (regUser ve data)
          ((runValidator ve data).password.getD "") = true
      · rw [post_success ve get_token repo data hs hex hgt]
        refine ⟨fun u hu => hs, ?_, ?_, by simp, by simp⟩
        · intro u pw ok h
          simp at h
          obtain ⟨rfl, -, -⟩ := h
          rfl
        · simp [List.countP_cons, List.countP_nil]
      · simp only [Bool.not_eq_true] at hgt
        rw [post_auth_failed ve get_token repo data hs hex hgt]
        refine ⟨fun u hu => hs, ?_, ?_, by simp, by simp⟩
        · intro u pw ok h
          simp at h
          obtain ⟨rfl, -, -⟩ := h
          rfl
        · simp [List.countP_cons, List.countP_nil]
  · simp only [Bool.not_eq_true] at hs
    rw [post_validation_failed ve get_token repo data hs]
    exact ⟨fun u hu => absurd hu (by simp), by simp, by simp, by simp, by simp⟩

/-- Witness for C8 (amended) at a concrete successful run. -/
theorem c8_lifecycle_witness :
    Event.constructUser ⟨"alice", "alice@kindle.com", "alice@example.com"⟩ ∈
      (post (fun s => some s) (fun _ _ => true) []
        ⟨some "alice", some "secret", some "alice@kindle.com",
          some "alice@example.com"⟩).trace ∧
    (runValidator (fun s => some s)
      ⟨some "alice", some "secret", some "alice@kindle.com",
        some "alice@example.com"⟩).success = true :=
  ⟨by decide,
   (c8_lifecycle (fun s => some s) (fun _ _ => true) []
      ⟨some "alice", some "secret", some "alice@kindle.com",
        some "alice@example.com"⟩).1
     ⟨"alice", "alice@kindle.com", "alice@example.com"⟩ (by decide)⟩

/-- C10: the typed email values the validator stores are exactly the
normalized addresses returned by the external email validator, the inserted
User carries those stored values in kindle_mail and email, and under the
spec-modelled normalizer the normalized address can differ from the raw
submitted string — the raw string itself is not what is persisted. -/
theorem c10_normalized_persisted :
    (∀ (ve : String → Option String) (data : Form) (e : String),
      (runValidator ve data).kindle_email = some e →
        ve (data.kindleEmail.getD "") = some e) ∧
    (∀ (ve : String → Option String) (data : Form) (e : String),
      (runValidator ve data).notify_email = some e →
        ve (data.notifyEmail.getD "") = some e) ∧
    (∀ (ve : String → Option String) (get_token : User → String → Bool)
        (repo : List User) (data : Form) (u : User),
      Event.insertUser u ∈ (post ve get_token repo data).trace →
        u.kindle_mail = (runValidator ve data).kindle_email.getD "" ∧
        u.email = (runValidator ve data).notify_email.getD "") ∧
    (validateEmailSpec "alice@KINDLE.com" = some "alice@kindle.com" ∧
      ("alice@kindle.com" : String) ≠ "alice@KINDLE.com") := by
  refine ⟨?_, ?_, ?_, by decide, by decide⟩
  · intro ve data e h
    rw [validator_kindle_val] at h
    by_cases hk : fieldMissing data.kindleEmail
    · rw [(emails_kindle_missing ve data hk).2] at h
      simp at h
    · simp only [Bool.not_eq_true] at hk
      cases hvk : ve (data.kindleEmail.getD "") with
      | none =>
        rw [(emails_kindle_invalid ve data hk hvk).2] at h
        simp at h
      | some e2 =>
        by_cases hd : (strEndsWith e2 "@kindle.com" || strEndsWith e2 "@free.kindle.com") = true
        · rw [(emails_kindle_ok ve data e2 hk hvk hd).2] at h
          exact h
        · simp only [Bool.not_eq_true] at hd
          rw [(emails_kindle_domain ve data e2 hk hvk hd).2] at h
          simp at h
  · intro ve data e h
    rw [validator_notify_val] at h
    by_cases hn : fieldMissing data.notifyEmail
    · rw [(emails_notify_missing ve data hn).2] at h
      simp at h
    · simp only [Bool.not_eq_true] at hn
      cases hvn : ve (data.notifyEmail.getD "") with
      | none =>
        rw [(emails_notify_invalid ve data hn hvn).2] at h
        simp at h
      | some e2 =>
        rw [(emails_notify_ok ve data e2 hn hvn).2] at h
        exact h
  · intro ve get_token repo data u h
    by_cases hs : (runValidator ve data).success = true
    · by_cases hex : (repo.filter
        (fun u => u.name = (runValidator ve data).username.getD "")).length ≠ 0
      · rw [post_user_exists ve get_token repo data hs hex] at h
        exact absurd h (by simp)
      · push_neg at hex
        by_cases hgt : get_token (regUser ve data)
            ((runValidator ve data).password.getD "") = true
        · rw [post_success ve get_token repo data hs hex hgt] at h
          simp at h
          rw [h]
          exact ⟨rfl, rfl⟩
        · simp only [Bool.not_eq_true] at hgt
          rw [post_auth_failed ve get_token repo data hs hex hgt] at h
          exact absurd h (by simp)
    · simp only [Bool.not_eq_true] at hs
      rw [post_validation_failed ve get_token repo data hs] at h
      exact absurd h (by simp)

/-- Witness for C10: the stored kindle value for a raw address with an
upper-case domain is the lower-cased normalized address. -/
theorem c10_normalized_persisted_witness :
    (runValidator validateEmailSpec
      ⟨some "alice", some "secret", some "alice@KINDLE.com",
        some "alice@example.com"⟩).kindle_email = some "alice@kindle.com" ∧
    validateEmailSpec "alice@KINDLE.com" = some "alice@kindle.com" :=
  ⟨by decide,
   c10_normalized_persisted.1 validateEmailSpec
     ⟨some "alice", some "secret", some "alice@KINDLE.com", some "alice@example.com"⟩
     "alice@kindle.com" (by decide)⟩

theorem validatorEC_lookup (ve : String → Option String) (data : Form) (k : String) :
    lookupKey k (runValidatorEC ve data).errors =
      (lookupKey k (validate_credentials data).errors).or
        (lookupKey k (validate_emails ve data).errors) := by
  simp [runValidatorEC, dictUpdate, lookupKey_dictUpdate]

theorem validatorCE_lookup (ve : String → Option String) (data : Form) (k : String) :
    lookupKey k (runValidatorCE ve data).errors =
      (lookupKey k (validate_emails ve data).errors).or
        (lookupKey k (validate_credentials data).errors) := by
  simp [runValidatorCE, dictUpdate, lookupKey_dictUpdate]

theorem cred_emails_disjoint (ve : String → Option String) (data : Form) (k : String) :
    lookupKey k (validate_credentials data).errors = none ∨
      lookupKey k (validate_emails ve data).errors = none := by
  by_cases h1 : k = "username"
  · subst h1
    exact Or.inr (emails_error_keys ve data _ (by decide) (by decide))
  · by_cases h2 : k = "password"
    · subst h2
      exact Or.inr (emails_error_keys ve data _ (by decide) (by decide))
    · exact Or.inl (cred_error_keys data k h1 h2)

theorem validatorCE_errors_nil (ve : String → Option String) (data : Form) :
    (runValidatorCE ve data).errors = [] ↔
      (validate_credentials data).errors = [] ∧ (validate_emails ve data).errors = [] := by
  simp [runValidatorCE, dictUpdate, dictUpdate_eq_nil_iff]

/-- C9: the two validation passes are independent and commute: whichever order
the two updates of the shared errors dict are applied in, the merged error
mapping is pointwise the same, the success verdict and the four typed values
agree, and each pass's errors are always included in the merged mapping. -/
theorem c9_passes_commute (ve : String → Option String) (data : Form) :
    (∀ k, lookupKey k (runValidatorEC ve data).errors =
      lookupKey k (runValidatorCE ve data).errors) ∧
    (runValidatorEC ve data).success = (runValidatorCE ve data).success ∧
    (runValidatorEC ve data).username = (runValidatorCE ve data).username ∧
    (runValidatorEC ve data).password = (runValidatorCE ve data).password ∧
    (runValidatorEC ve data).kindle_email = (runValidatorCE ve data).kindle_email ∧
    (runValidatorEC ve data).notify_email = (runValidatorCE ve data).notify_email ∧
    (∀ k v, lookupKey k (validate_credentials data).errors = some v →
      lookupKey k (runValidatorEC ve data).errors = some v) ∧
    (∀ k v, lookupKey k (validate_emails ve data).errors = some v →
      lookupKey k (runValidatorEC ve data).errors = some v) := by
  refine ⟨?_, ?_, rfl, rfl, rfl, rfl, ?_, ?_⟩
  · intro k
    rw [validatorEC_lookup, validatorCE_lookup]
    rcases cred_emails_disjoint ve data k with h | h <;> simp [h, Option.or_none]
  · rw [Bool.eq_iff_iff, success_iff_errors_nil, success_iff_errors_nil,
      validatorCE_errors_nil]
    have := validator_errors_nil ve data
    rw [runValidator] at this
    rw [this]
    exact and_comm
  · intro k v h
    rw [validatorEC_lookup, h]
    simp
  · intro k v h
    rw [validatorEC_lookup]
    rcases cred_emails_disjoint ve data k with h2 | h2
    · rw [h2, h]
      simp
    · rw [h2] at h
      exact absurd h (by simp)

/-- Witness for C9: with a missing username and an invalid kindle address, the
presence error survives into the merged error mapping. -/
theorem c9_passes_commute_witness :
    lookupKey "username"
      (validate_credentials ⟨none, some "secret", some "bad", some "bademail"⟩).errors =
      some "Username not given or empty" ∧
    lookupKey "username"
      (runValidatorEC (fun _ => none)
        ⟨none, some "secret", some "bad", some "bademail"⟩).errors =
      some "Username not given or empty" :=
  ⟨by decide,
   (c9_passes_commute (fun _ => none)
      ⟨none, some "secret", some "bad", some "bademail"⟩).2.2.2.2.2.2.1
     "username" "Username not given or empty" (by decide)⟩

theorem char_ofNat_toNat_small {n : Nat} (h : n < 55296) : (Char.ofNat n).toNat = n := by
  rw [Char.ofNat, dif_pos (Or.inl h : n.isValidChar)]
  rfl

theorem char_toLower_eq_atSign {c : Char} (h : Char.toLower c = '@') : c = '@' := by
  have h2 : (if c.toNat ≥ 65 ∧ c.toNat ≤ 90 then Char.ofNat (c.toNat + 32) else c) = '@' := h
  by_cases hc : c.toNat ≥ 65 ∧ c.toNat ≤ 90
  · rw [if_pos hc] at h2
    have h3 := congrArg Char.toNat h2
    rw [char_ofNat_toNat_small (by omega)] at h3
    have h4 : ('@').toNat = 64 := rfl
    omega
  · rwa [if_neg hc] at h2

theorem not_mem_map_toLower {l : List Char} (h : ('@' : Char) ∉ l) :
    ('@' : Char) ∉ l.map Char.toLower := by
  intro hm
  obtain ⟨c, hc, he⟩ := List.mem_map.mp hm
  exact h (char_toLower_eq_atSign he ▸ hc)

theorem splitAtSign_eq (xs l d : List Char) (h : splitAtSign xs = some (l, d)) :
    xs = l ++ '@' :: d ∧ ('@' : Char) ∉ l ∧ ('@' : Char) ∉ d := by
  induction xs generalizing l d with
  | nil => simp [splitAtSign] at h
  | cons c cs ih =>
    rw [splitAtSign] at h
    by_cases hc : c = '@'
    · subst hc
      by_cases hm : ('@' : Char) ∈ cs
      · simp [hm] at h
      · simp [hm] at h
        obtain ⟨rfl, rfl⟩ := h
        exact ⟨rfl, by simp, hm⟩
    · rw [if_neg hc] at h
      cases hs : splitAtSign cs with
      | none => rw [hs] at h; simp at h
      | some ld =>
        obtain ⟨l2, d2⟩ := ld
        rw [hs] at h
        simp at h
        obtain ⟨rfl, rfl⟩ := h
        obtain ⟨h1, h2, h3⟩ := ih l2 d2 hs
        refine ⟨by rw [h1]; rfl, ?_, h3⟩
        simp only [List.mem_cons]
        rintro (h4 | h4)
        · exact hc h4.symm
        · exact h2 h4

theorem atSplit_unique (X pre D rest : List Char) (hX : ('@' : Char) ∉ X)
    (hpre : ('@' : Char) ∉ pre) (h : X ++ '@' :: D = pre ++ '@' :: rest) :
    X = pre ∧ D = rest := by
  induction X generalizing pre with
  | nil =>
    cases pre with
    | nil =>
      simp at h
      exact ⟨rfl, h⟩
    | cons p ps =>
      simp at h
      exact absurd (List.mem_cons_self p ps) (h.1 ▸ hpre)
  | cons x xs ih =>
    cases pre with
    | nil =>
      simp at h
      exact absurd (List.mem_cons_self x xs) (h.1 ▸ hX)
    | cons p ps =>
      simp only [List.cons_append, List.cons.injEq] at h
      obtain ⟨rfl, h2⟩ := h
      have hX2 : ('@' : Char) ∉ xs := fun hm => hX (List.mem_cons_of_mem x hm)
      have hp2 : ('@' : Char) ∉ ps := fun hm => hpre (List.mem_cons_of_mem x hm)
      obtain ⟨h3, h4⟩ := ih ps hX2 hp2 h2
      exact ⟨by rw [h3], h4⟩

theorem suffix_atSign (X D R : List Char) (hX : ('@' : Char) ∉ X)
    (hD : ('@' : Char) ∉ D) (hR : ('@' : Char) ∉ R) :
    ('@' :: R) <:+ (X ++ '@' :: D) ↔ R = D := by
  constructor
  · rintro ⟨pre, hpre⟩
    have hc := congrArg (fun l => List.count '@' l) hpre
    simp only [List.count_append, List.count_cons_self] at hc
    rw [List.count_eq_zero.mpr hR, List.count_eq_zero.mpr hX,
      List.count_eq_zero.mpr hD] at hc
    have hpre0 : ('@' : Char) ∉ pre := List.count_eq_zero.mp (by omega)
    exact (atSplit_unique pre X R D hpre0 hX hpre).2
  · rintro rfl
    exact ⟨X, rfl⟩

theorem validateEmailSpec_eq (s e : String) (h : validateEmailSpec s = some e) :
    ∃ l d, s.data = l ++ '@' :: d ∧ ('@' : Char) ∉ l ∧ ('@' : Char) ∉ d ∧
      l ≠ [] ∧ d ≠ [] ∧ e.data = l ++ '@' :: d.map Char.toLower := by
  rw [validateEmailSpec] at h
  cases hsp : splitAtSign s.data with
  | none => rw [hsp] at h; simp at h
  | some ld =>
    obtain ⟨l, d⟩ := ld
    rw [hsp] at h
    have h2 : (if l = [] ∨ d = [] then (none : Option String)
        else some (String.mk (l ++ '@' :: d.map Char.toLower))) = some e := h
    by_cases hld : l = [] ∨ d = []
    · rw [if_pos hld] at h2; simp at h2
    · rw [if_neg hld] at h2
      push_neg at hld
      obtain ⟨hs1, hs2, hs3⟩ := splitAtSign_eq s.data l d hsp
      refine ⟨l, d, hs1, hs2, hs3, hld.1, hld.2, ?_⟩
      have he : String.mk (l ++ '@' :: d.map Char.toLower) = e := Option.some.inj h2
      rw [← he]

theorem strToLower_decompose (raw : String) (l d : List Char)
    (h : raw.data = l ++ '@' :: d) :
    (strToLower raw).data = l.map Char.toLower ++ '@' :: d.map Char.toLower := by
  have hat : Char.toLower '@' = '@' := rfl
  simp [strToLower, h, hat]

theorem endsWith_lower_equiv (raw e : String) (h : validateEmailSpec raw = some e)
    (t : String) (R : List Char) (ht : t.data = '@' :: R) (hR : ('@' : Char) ∉ R) :
    strEndsWith e t = strEndsWith (strToLower raw) t := by
  obtain ⟨l, d, hs, hl, hd, -, -, he⟩ := validateEmailSpec_eq raw e h
  have hdl : ('@' : Char) ∉ d.map Char.toLower := not_mem_map_toLower hd
  have hll : ('@' : Char) ∉ l.map Char.toLower := not_mem_map_toLower hl
  rw [strEndsWith, strEndsWith, ht, he, strToLower_decompose raw l d hs]
  exact decide_eq_decide.mpr
    ((suffix_atSign l (d.map Char.toLower) R hl hdl hR).trans
      (suffix_atSign (l.map Char.toLower) (d.map Char.toLower) R hll hdl hR).symm)

/-- C5: a present, non-empty and syntactically valid kindleEmail is accepted —
its normalized value stored and no kindleEmail error recorded — iff the full
address ends with the suffix at-kindle.com or at-free.kindle.com up to letter
case, formalized as the literal suffix check on the lower-cased full address;
when the suffix check fails the recorded error is the domain message, not the
syntax message. Settled against the spec-modelled normalizer. -/
theorem c5_kindle_domain_rule (data : Form) (raw e : String)
    (hk : data.kindleEmail = some raw) (hne : raw.length ≠ 0)
    (hv : validateEmailSpec raw = some e) :
    (((runValidator validateEmailSpec data).kindle_email = some e ∧
        lookupKey "kindleEmail" (runValidator validateEmailSpec data).errors = none) ↔
      (strEndsWith (strToLower raw) "@kindle.com" ||
        strEndsWith (strToLower raw) "@free.kindle.com") = true) ∧
    ((strEndsWith (strToLower raw) "@kindle.com" ||
        strEndsWith (strToLower raw) "@free.kindle.com") = false →
      lookupKey "kindleEmail" (runValidator validateEmailSpec data).errors =
        some "Given Kindle email does not end with @kindle.com or @free.kindle.com") := by
  have hmiss : fieldMissing data.kindleEmail = false := by
    rw [hk]
    simpa [fieldMissing] using hne
  have hv2 : validateEmailSpec (data.kindleEmail.getD "") = some e := by
    rw [hk]
    exact hv
  have hq1 : strEndsWith e "@kindle.com" = strEndsWith (strToLower raw) "@kindle.com" :=
    endsWith_lower_equiv raw e hv "@kindle.com" ("kindle.com".data) rfl (by decide)
  have hq2 : strEndsWith e "@free.kindle.com" =
      strEndsWith (strToLower raw) "@free.kindle.com" :=
    endsWith_lower_equiv raw e hv "@free.kindle.com" ("free.kindle.com".data) rfl (by decide)
  have hcond : (strEndsWith e "@kindle.com" || strEndsWith e "@free.kindle.com") =
      (strEndsWith (strToLower raw) "@kindle.com" ||
        strEndsWith (strToLower raw) "@free.kindle.com") := by
    rw [hq1, hq2]
  by_cases hb : (strEndsWith (strToLower raw) "@kindle.com" ||
      strEndsWith (strToLower raw) "@free.kindle.com") = true
  · obtain ⟨h1, h2⟩ := emails_kindle_ok validateEmailSpec data e hmiss hv2 (hcond.trans hb)
    constructor
    · rw [validator_kindle_val, validator_kindle_lookup]
      simp [h1, h2, hb]
    · intro hb2
      rw [hb2] at hb
      exact absurd hb Bool.false_ne_true
  · simp only [Bool.not_eq_true] at hb
    obtain ⟨h1, h2⟩ := emails_kindle_domain validateEmailSpec data e hmiss hv2
      (hcond.trans hb)
    constructor
    · rw [validator_kindle_val, validator_kindle_lookup]
      simp [h1, h2, hb]
    · intro hb2
      rw [validator_kindle_lookup]
      exact h1

/-- Witness for C5 at a concrete valid address with an upper-case domain. -/
theorem c5_kindle_domain_rule_witness :
    validateEmailSpec "alice@KINDLE.com" = some "alice@kindle.com" ∧
    ((((runValidator validateEmailSpec
        ⟨some "alice", some "secret", some "alice@KINDLE.com",
          some "alice@example.com"⟩).kindle_email = some "alice@kindle.com" ∧
        lookupKey "kindleEmail" (runValidator validateEmailSpec
          ⟨some "alice", some "secret", some "alice@KINDLE.com",
            some "alice@example.com"⟩).errors = none) ↔
      (strEndsWith (strToLower "alice@KINDLE.com") "@kindle.com" ||
        strEndsWith (strToLower "alice@KINDLE.com") "@free.kindle.com") = true) ∧
    ((strEndsWith (strToLower "alice@KINDLE.com") "@kindle.com" ||
        strEndsWith (strToLower "alice@KINDLE.com") "@free.kindle.com") = false →
      lookupKey "kindleEmail" (runValidator validateEmailSpec
        ⟨some "alice", some "secret", some "alice@KINDLE.com",
          some "alice@example.com"⟩).errors =
        some "Given Kindle email does not end with @kindle.com or @free.kindle.com")) :=
  ⟨by decide,
   c5_kindle_domain_rule
     ⟨some "alice", some "secret", some "alice@KINDLE.com", some "alice@example.com"⟩
     "alice@KINDLE.com" "alice@kindle.com" rfl (by decide) (by decide)⟩

/-- C6: a present, non-empty but syntactically invalid kindleEmail or
notifyEmail is reported under its key with the validity message and never the
domain-suffix message, and within a single pass the merged errors list carries
at most one entry for each email field, so the two messages are mutually
exclusive. -/
theorem c6_invalid_email (ve : String → Option String) (data : Form) :
    (∀ raw, data.kindleEmail = some raw → raw.length ≠ 0 → ve raw = none →
      lookupKey "kindleEmail" (runValidator ve data).errors =
        some "Kindle email is not a valid email address" ∧
      lookupKey "kindleEmail" (runValidator ve data).errors ≠
        some "Given Kindle email does not end with @kindle.com or @free.kindle.com") ∧
    (∀ raw, data.notifyEmail = some raw → raw.length ≠ 0 → ve raw = none →
      lookupKey "notifyEmail" (runValidator ve data).errors =
        some "Notification email is not a valid email address") ∧
    ((runValidator ve data).errors.countP (fun p => p.1 == "kindleEmail") ≤ 1) ∧
    ((runValidator ve data).errors.countP (fun p => p.1 == "notifyEmail") ≤ 1) := by
  refine ⟨?_, ?_, ?_, ?_⟩
  · intro raw hk hne hv
    have hmiss : fieldMissing data.kindleEmail = false := by
      rw [hk]
      simpa [fieldMissing] using hne
    have hv2 : ve (data.kindleEmail.getD "") = none := by
      rw [hk]
      exact hv
    obtain ⟨h1, -⟩ := emails_kindle_invalid ve data hmiss hv2
    rw [validator_kindle_lookup]
    exact ⟨h1, by rw [h1]; simp⟩
  · intro raw hn hne hv
    have hmiss : fieldMissing data.notifyEmail = false := by
      rw [hn]
      simpa [fieldMissing] using hne
    have hv2 : ve (data.notifyEmail.getD "") = none := by
      rw [hn]
      exact hv
    obtain ⟨h1, -⟩ := emails_notify_invalid ve data hmiss hv2
    rw [validator_notify_lookup]
    exact h1
  · by_cases hu : fieldMissing data.username <;>
    by_cases hp : fieldMissing data.password <;>
    by_cases hk : fieldMissing data.kindleEmail <;>
    by_cases hn : fieldMissing data.notifyEmail <;>
    cases hvk : ve (data.kindleEmail.getD "") <;>
    cases hvn : ve (data.notifyEmail.getD "") <;>
    simp [runValidator, runValidatorEC, validate_emails, validate_credentials,
      hu, hp, hk, hn, hvk, hvn, dictUpdate, lookupKey,
      List.countP_cons, List.countP_nil] <;>
    split <;>
    simp [dictUpdate, lookupKey, List.countP_cons, List.countP_nil]
  · by_cases hu : fieldMissing data.username <;>
    by_cases hp : fieldMissing data.password <;>
    by_cases hk : fieldMissing data.kindleEmail <;>
    by_cases hn : fieldMissing data.notifyEmail <;>
    cases hvk : ve (data.kindleEmail.getD "") <;>
    cases hvn : ve (data.notifyEmail.getD "") <;>
    simp [runValidator, runValidatorEC, validate_emails, validate_credentials,
      hu, hp, hk, hn, hvk, hvn, dictUpdate, lookupKey,
      List.countP_cons, List.countP_nil] <;>
    split <;>
    simp [dictUpdate, lookupKey, List.countP_cons, List.countP_nil]

/-- Witness for C6 at a concrete syntactically invalid kindle address. -/
theorem c6_invalid_email_witness :
    "notanemail".length ≠ 0 ∧
    lookupKey "kindleEmail" (runValidator (fun _ => none)
      ⟨some "alice", some "secret", some "notanemail",
        some "alice@example.com"⟩).errors =
      some "Kindle email is not a valid email address" ∧
    lookupKey "kindleEmail" (runValidator (fun _ => none)
      ⟨some "alice", some "secret", some "notanemail",
        some "alice@example.com"⟩).errors ≠
      some "Given Kindle email does not end with @kindle.com or @free.kindle.com" := by
  refine ⟨by decide, ?_, ?_⟩
  · exact ((c6_invalid_email (fun _ => none)
      ⟨some "alice", some "secret", some "notanemail", some "alice@example.com"⟩).1
      "notanemail" rfl (by decide) rfl).1
  · exact ((c6_invalid_email (fun _ => none)
      ⟨some "alice", some "secret", some "notanemail", some "alice@example.com"⟩).1
      "notanemail" rfl (by decide) rfl).2

end WallabagKindleConsumer
